import Mathlib

/-!
Verification development for the conda-store build execution and
artifact-addressing subsystem: the Build Key codec (versions 1, 2, 3),
the artifact resolver, and the action runner (execution context,
scratch directory, output capture).

The repository ships the subsystem's tests; the implementation modules
(`conda_store_server.BuildKey`, `conda_store_server._internal.action`,
`conda_store_server._internal.server.views.api`) are not part of the
source tree given here, so every definition below is modelled from the
specification, as its doc comment records.
-/

namespace CondaStore

/-! ## Decimal rendering and parsing of natural numbers -/

/-- Modelled from the spec: decimal digit character for a value < 10. -/
def digitChar (n : Nat) : Char :=
  Char.ofNat (48 + n)

/-- Fuel-driven decimal rendering helper (most significant digit first). -/
def natDigsAux : Nat → Nat → List Char
  | 0, _ => []
  | f + 1, n =>
    if n < 10 then [digitChar n]
    else natDigsAux f (n / 10) ++ [digitChar (n % 10)]

/-- Modelled from the spec: decimal rendering of a natural number, as the
missing implementation's string formatting of ids and timestamps. -/
def natDigs (n : Nat) : String :=
  ⟨natDigsAux (n + 1) n⟩

/-- Value of a decimal digit character. -/
def digitVal (c : Char) : Nat :=
  c.toNat - 48

/-- Accumulating decimal parse of a digit list. -/
def digitsToNatAux (acc : Nat) : List Char → Nat
  | [] => acc
  | c :: cs => digitsToNatAux (acc * 10 + digitVal c) cs

/-- Modelled from the spec: parsing a nonempty all-digit field back to a
natural number; any other field is rejected. -/
def digitsToNat? (cs : List Char) : Option Nat :=
  if cs ≠ [] ∧ cs.all Char.isDigit then some (digitsToNatAux 0 cs) else none

theorem natDigsAux_fuel (fuel fuel' n : Nat) (h : n < fuel) (h' : n < fuel') :
    natDigsAux fuel n = natDigsAux fuel' n := by
  induction fuel generalizing fuel' n with
  | zero => omega
  | succ f ih =>
    cases fuel' with
    | zero => omega
    | succ f' =>
      by_cases hn : n < 10
      · simp [natDigsAux, hn]
      · simp only [natDigsAux, if_neg hn]
        rw [ih f' (n / 10) (by omega) (by omega)]

theorem natDigs_eq (n : Nat) :
    (natDigs n).data =
      if n < 10 then [digitChar n] else (natDigs (n / 10)).data ++ [digitChar (n % 10)] := by
  show natDigsAux (n + 1) n = _
  rw [natDigsAux]
  split
  · rfl
  · rename_i hn
    rw [natDigsAux_fuel n (n / 10 + 1) (n / 10) (by omega) (by omega)]
    rfl


theorem digitChar_isDigit : ∀ n < 10, (digitChar n).isDigit = true := by decide

theorem natDigs_all_digits (n : Nat) : ∀ c ∈ (natDigs n).data, c.isDigit = true := by
  induction n using Nat.strong_induction_on with
  | _ n ih =>
    intro c hc
    rw [natDigs_eq] at hc
    split at hc
    · rename_i hn
      simp only [List.mem_singleton] at hc
      exact hc ▸ digitChar_isDigit n hn
    · rename_i hn
      rcases List.mem_append.mp hc with h1 | h2
      · exact ih (n / 10) (by omega) c h1
      · simp only [List.mem_singleton] at h2
        exact h2 ▸ digitChar_isDigit (n % 10) (Nat.mod_lt _ (by omega))

theorem natDigs_ne_nil (n : Nat) : (natDigs n).data ≠ [] := by
  rw [natDigs_eq]
  split <;> simp

theorem digitsToNatAux_append (acc : Nat) (xs ys : List Char) :
    digitsToNatAux acc (xs ++ ys) = digitsToNatAux (digitsToNatAux acc xs) ys := by
  induction xs generalizing acc with
  | nil => rfl
  | cons c cs ih => exact ih (acc * 10 + digitVal c)

theorem digitVal_digitChar : ∀ n < 10, digitVal (digitChar n) = n := by decide

theorem digitsToNatAux_nil (acc : Nat) : digitsToNatAux acc [] = acc := rfl

theorem digitsToNatAux_cons (acc : Nat) (c : Char) (cs : List Char) :
    digitsToNatAux acc (c :: cs) = digitsToNatAux (acc * 10 + digitVal c) cs := rfl

theorem digitsToNatAux_natDigs (acc n : Nat) :
    digitsToNatAux acc (natDigs n).data = acc * 10 ^ (natDigs n).data.length + n := by
  induction n using Nat.strong_induction_on generalizing acc with
  | _ n ih =>
    rw [natDigs_eq]
    split
    · rename_i hn
      rw [digitsToNatAux_cons, digitsToNatAux_nil, digitVal_digitChar n hn,
        List.length_singleton, pow_one]
    · rename_i hn
      rw [digitsToNatAux_append, ih (n / 10) (by omega) acc, digitsToNatAux_cons,
        digitsToNatAux_nil, digitVal_digitChar (n % 10) (Nat.mod_lt _ (by omega)),
        List.length_append, List.length_singleton, pow_succ, ← Nat.mul_assoc]
      generalize acc * 10 ^ (natDigs (n / 10)).data.length = m
      omega

/-- Decimal parse is a left inverse of decimal rendering. -/
theorem digitsToNat_natDigs (n : Nat) : digitsToNat? (natDigs n).data = some n := by
  rw [digitsToNat?, if_pos]
  · rw [digitsToNatAux_natDigs]
    simp
  · exact ⟨natDigs_ne_nil n, List.all_eq_true.mpr fun c hc => natDigs_all_digits n c hc⟩

theorem natDigs_no_dash (n : Nat) : ∀ c ∈ (natDigs n).data, c ≠ '-' := by
  intro c hc
  have := natDigs_all_digits n c hc
  intro h
  rw [h] at this
  exact absurd this (by decide)

end CondaStore

namespace CondaStore

/-! ## Timestamps and zero padding -/

/-- Modelled from the spec: fixed-width zero padding of a rendered field
("timestamp fields are zero-padded"). -/
def padZeros (w : Nat) (s : String) : String :=
  ⟨List.replicate (w - s.data.length) '0' ++ s.data⟩

theorem padZeros_all_digits (w : Nat) (s : String)
    (h : ∀ c ∈ s.data, c.isDigit = true) :
    ∀ c ∈ (padZeros w s).data, c.isDigit = true := by
  intro c hc
  rcases List.mem_append.mp hc with h1 | h2
  · rw [List.eq_of_mem_replicate h1]
    decide
  · exact h c h2

/-- Modelled from the spec: a build's schedule timestamp with sub-second
precision (`scheduled_on`), broken out into calendar fields. -/
structure DateTime where
  year : Nat
  month : Nat
  day : Nat
  hour : Nat
  minute : Nat
  second : Nat
  microsecond : Nat
deriving DecidableEq, Repr

/-- Modelled from the spec: days since the Unix epoch of a proleptic
Gregorian calendar date (the conversion the version-2 key's
`unix_timestamp_seconds` field needs). -/
def daysFromCivil (y m d : Int) : Int :=
  let y' := if m ≤ 2 then y - 1 else y
  let era := (if 0 ≤ y' then y' else y' - 399) / 400
  let yoe := y' - era * 400
  let mp := (m + 9) % 12
  let doy := (153 * mp + 2) / 5 + d - 1
  let doe := yoe * 365 + yoe / 4 - yoe / 100 + doy
  era * 146097 + doe - 719468

/-- Modelled from the spec: seconds since the Unix epoch of a `DateTime`
(sub-second part discarded), as used by the version-2 key. -/
def epochSeconds (t : DateTime) : Int :=
  daysFromCivil t.year t.month t.day * 86400
    + t.hour * 3600 + t.minute * 60 + t.second

/-- Rendering of a (possibly negative) integer in decimal. -/
def intRepr (i : Int) : String :=
  if i < 0 then "-" ++ natDigs i.natAbs else natDigs i.toNat

/-! ## Builds and the Build Key codec -/

/-- Modelled from the spec: the data a Build Key is derived from — the
build's unique integer `id`, the owning environment's `name`, the
hex digest of the resolved content (`content_hash`) and the schedule
timestamp (`scheduled_on`). -/
structure Build where
  id : Nat
  name : String
  content_hash : String
  scheduled_on : DateTime
deriving DecidableEq, Repr

namespace BuildKey

/-- Modelled from the spec: the tagged variant of supported Build Key
format versions. -/
inductive Version where
  | v1
  | v2
  | v3
deriving DecidableEq, Repr

/-- The numeric tag of each supported version. -/
def Version.num : Version → Nat
  | .v1 => 1
  | .v2 => 2
  | .v3 => 3

/-- Modelled from the spec: the immutable set of versions ever supported,
`versions() -> (1, 2, 3)`. -/
def versions : List Nat := [1, 2, 3]

/-- Modelled from the spec, version 1 (legacy, long form):
`<full-content-hash>-<YYYYMMDD>-<HHMMSS>-<microseconds>-<build_id>-<environment_name>`
with zero-padded timestamp fields and the name last. -/
def version1_key (b : Build) : String :=
  b.content_hash ++ "-"
    ++ padZeros 4 (natDigs b.scheduled_on.year)
    ++ padZeros 2 (natDigs b.scheduled_on.month)
    ++ padZeros 2 (natDigs b.scheduled_on.day) ++ "-"
    ++ padZeros 2 (natDigs b.scheduled_on.hour)
    ++ padZeros 2 (natDigs b.scheduled_on.minute)
    ++ padZeros 2 (natDigs b.scheduled_on.second) ++ "-"
    ++ padZeros 6 (natDigs b.scheduled_on.microsecond) ++ "-"
    ++ natDigs b.id ++ "-" ++ b.name

/-- Modelled from the spec, version 2 (default):
`<hash_prefix_8hex>-<unix_timestamp_seconds>-<build_id>-<environment_name>`. -/
def version2_key (b : Build) : String :=
  ⟨b.content_hash.data.take 8⟩ ++ "-"
    ++ intRepr (epochSeconds b.scheduled_on) ++ "-"
    ++ natDigs b.id ++ "-" ++ b.name

/-- Modelled from the spec, version 3 (experimental, hash-only): a single
content digest of the concatenation of `(content_hash, timestamp,
build_id, environment_name)`; the digest algorithm itself is unspecified
and is passed in as `digest`. -/
def version3_key (digest : String → String) (b : Build) : String :=
  digest (b.content_hash ++ intRepr (epochSeconds b.scheduled_on)
    ++ natDigs b.id ++ b.name)

/-- Modelled from the spec: `encode(build) -> string`, dispatching on the
format version. -/
def get_build_key (digest : String → String) (v : Version) (b : Build) : String :=
  match v with
  | .v1 => version1_key b
  | .v2 => version2_key b
  | .v3 => version3_key digest b

end BuildKey

end CondaStore

namespace CondaStore

/-! ## Build Key decoding -/

/-- Splits a character list at the first `'-'` delimiter: the field before
it and the remainder after it. -/
def nextField : List Char → List Char × List Char
  | [] => ([], [])
  | c :: cs =>
    if c = '-' then ([], cs)
    else
      let p := nextField cs
      (c :: p.1, p.2)

/-- Drops `k` delimited fields from the front of a character list. -/
def dropFields : Nat → List Char → List Char
  | 0, cs => cs
  | k + 1, cs => dropFields k (nextField cs).2

/-- The `k`-th (0-based) `'-'`-delimited field of a character list. -/
def fieldAt (k : Nat) (cs : List Char) : List Char :=
  (nextField (dropFields k cs)).1

namespace BuildKey

/-- Modelled from the spec: `parse(build_or_codec_context, key) -> build_id`.
Versions 1 and 2 recover the id purely from the string (field 4 resp.
field 2, fields never being parsed past the last fixed field so a name
containing delimiters is tolerated); version 3 embeds no id and is
resolved by reverse lookup against the build store. -/
def parse_build_key (digest : String → String) (store : List Build)
    (v : Version) (key : String) : Option Nat :=
  match v with
  | .v1 => digitsToNat? (fieldAt 4 key.data)
  | .v2 => digitsToNat? (fieldAt 2 key.data)
  | .v3 => (store.find? fun b => version3_key digest b == key).map (·.id)

end BuildKey

theorem nextField_append (a b : List Char) (h : ∀ c ∈ a, c ≠ '-') :
    nextField (a ++ '-' :: b) = (a, b) := by
  induction a with
  | nil => simp [nextField]
  | cons c a' ih =>
    have hc : c ≠ '-' := h c (List.mem_cons_self c a')
    simp only [List.cons_append, nextField, if_neg hc, List.append_eq]
    rw [ih fun x hx => h x (List.mem_cons_of_mem c hx)]

theorem fieldAt_skip (a b : List Char) (k : Nat) (h : ∀ c ∈ a, c ≠ '-') :
    fieldAt (k + 1) (a ++ '-' :: b) = fieldAt k b := by
  simp only [fieldAt, dropFields, nextField_append a b h]

theorem fieldAt_zero (a b : List Char) (h : ∀ c ∈ a, c ≠ '-') :
    fieldAt 0 (a ++ '-' :: b) = a := by
  simp only [fieldAt, dropFields, nextField_append a b h]

theorem isDigit_ne_dash {c : Char} (h : c.isDigit = true) : c ≠ '-' := by
  intro he
  rw [he] at h
  exact absurd h (by decide)

theorem padZeros_no_dash (w n : Nat) :
    ∀ c ∈ (padZeros w (natDigs n)).data, c ≠ '-' :=
  fun c hc => isDigit_ne_dash (padZeros_all_digits w _ (natDigs_all_digits n) c hc)

theorem no_dash_append {a b : List Char} (ha : ∀ c ∈ a, c ≠ '-')
    (hb : ∀ c ∈ b, c ≠ '-') : ∀ c ∈ a ++ b, c ≠ '-' := by
  intro c hc
  rcases List.mem_append.mp hc with h1 | h2
  · exact ha c h1
  · exact hb c h2

theorem dash_data : ("-" : String).data = ['-'] := rfl

end CondaStore

namespace CondaStore
namespace BuildKey

theorem parse_version1 (b : Build) (hh : ∀ c ∈ b.content_hash.data, c ≠ '-') :
    digitsToNat? (fieldAt 4 (version1_key b).data) = some b.id := by
  have e : (version1_key b).data =
      b.content_hash.data ++ '-' ::
        (((padZeros 4 (natDigs b.scheduled_on.year)).data ++
          ((padZeros 2 (natDigs b.scheduled_on.month)).data ++
           (padZeros 2 (natDigs b.scheduled_on.day)).data)) ++ '-' ::
          (((padZeros 2 (natDigs b.scheduled_on.hour)).data ++
            ((padZeros 2 (natDigs b.scheduled_on.minute)).data ++
             (padZeros 2 (natDigs b.scheduled_on.second)).data)) ++ '-' ::
            ((padZeros 6 (natDigs b.scheduled_on.microsecond)).data ++ '-' ::
              ((natDigs b.id).data ++ '-' :: b.name.data)))) := by
    simp [version1_key, String.data_append, dash_data, List.append_assoc]
  rw [e, fieldAt_skip _ _ _ hh,
    fieldAt_skip _ _ _ (no_dash_append (padZeros_no_dash 4 _)
      (no_dash_append (padZeros_no_dash 2 _) (padZeros_no_dash 2 _))),
    fieldAt_skip _ _ _ (no_dash_append (padZeros_no_dash 2 _)
      (no_dash_append (padZeros_no_dash 2 _) (padZeros_no_dash 2 _))),
    fieldAt_skip _ _ _ (padZeros_no_dash 6 _),
    fieldAt_zero _ _ (fun c hc => isDigit_ne_dash (natDigs_all_digits b.id c hc)),
    digitsToNat_natDigs]

end BuildKey
end CondaStore

namespace CondaStore
namespace BuildKey

theorem parse_version2 (b : Build) (hh : ∀ c ∈ b.content_hash.data, c ≠ '-')
    (ht : 0 ≤ epochSeconds b.scheduled_on) :
    digitsToNat? (fieldAt 2 (version2_key b).data) = some b.id := by
  have hrepr : intRepr (epochSeconds b.scheduled_on) =
      natDigs (epochSeconds b.scheduled_on).toNat := by
    rw [intRepr, if_neg (by omega)]
  have e : (version2_key b).data =
      b.content_hash.data.take 8 ++ '-' ::
        ((natDigs (epochSeconds b.scheduled_on).toNat).data ++ '-' ::
          ((natDigs b.id).data ++ '-' :: b.name.data)) := by
    simp [version2_key, hrepr, String.data_append, dash_data, List.append_assoc]
  rw [e, fieldAt_skip _ _ _ (fun c hc => hh c (List.mem_of_mem_take hc)),
    fieldAt_skip _ _ _ (fun c hc => isDigit_ne_dash (natDigs_all_digits _ c hc)),
    fieldAt_zero _ _ (fun c hc => isDigit_ne_dash (natDigs_all_digits b.id c hc)),
    digitsToNat_natDigs]

theorem parse_version3 (digest : String → String) (store : List Build) (b : Build)
    (hmem : b ∈ store)
    (hinj : ∀ b' ∈ store, version3_key digest b' = version3_key digest b → b'.id = b.id) :
    ((store.find? fun b' => version3_key digest b' == version3_key digest b).map (·.id))
      = some b.id := by
  induction store with
  | nil => exact absurd hmem (List.not_mem_nil b)
  | cons x xs ih =>
    by_cases hx : version3_key digest x = version3_key digest b
    · have hbeq : (version3_key digest x == version3_key digest b) = true := by
        simpa using hx
      simp only [List.find?, hbeq]
      simpa using hinj x (List.mem_cons_self x xs) hx
    · have hbeq : (version3_key digest x == version3_key digest b) = false := by
        simpa using hx
      simp only [List.find?, hbeq]
      rcases List.mem_cons.mp hmem with rfl | hmem'
      · exact absurd rfl hx
      · exact ih hmem' fun b' hb' => hinj b' (List.mem_cons_of_mem x hb')

/-- Round-trip of the codec: parsing the key encoded for a build under any
supported version recovers the build's id. -/
theorem parse_get_build_key (digest : String → String) (store : List Build)
    (v : Version) (b : Build)
    (hhash : ∀ c ∈ b.content_hash.data, c ≠ '-')
    (htime : 0 ≤ epochSeconds b.scheduled_on)
    (hmem : b ∈ store)
    (hinj : ∀ b' ∈ store,
      version3_key digest b' = version3_key digest b → b'.id = b.id) :
    parse_build_key digest store v (get_build_key digest v b) = some b.id := by
  cases v with
  | v1 => exact parse_version1 b hhash
  | v2 => exact parse_version2 b hhash htime
  | v3 => exact parse_version3 digest store b hmem hinj

end BuildKey
end CondaStore

namespace CondaStore

/-! ## Build-key version configuration -/

/-- Modelled from the spec: the single configuration setting the core
consumes, the build-key version. -/
structure Config where
  build_key_version : Nat
deriving DecidableEq, Repr

/-- Modelled from the spec: setting the build-key version; only `{1, 2, 3}`
is accepted, and an invalid value fails at configuration-set time with the
message `invalid build key version: <value>, expected: (1, 2, 3)`. -/
def set_build_key_version (cfg : Config) (v : Int) : Except String Config :=
  if v = 1 ∨ v = 2 ∨ v = 3 then .ok { cfg with build_key_version := v.toNat }
  else .error ("invalid build key version: " ++ intRepr v ++ ", expected: (1, 2, 3)")

/-- Modelled from the spec: `current_version()` returns the active
configured version. -/
def current_version (cfg : Config) : Nat :=
  cfg.build_key_version

/-! ## The concrete build exercised by the spec's worked example -/

/-- The full content hash of the worked example (prefix `c7afdeff`). -/
def exampleHash : String :=
  "c7afdeffbe2bda7d16ca69beecc8bebeb29280a95d4f3ed92849e4047710923b"

/-- The worked example: build id `12345678`, environment name
`this-is-a-long-environment-name`, scheduled `2023-11-05 03:54:10.510258`. -/
def exampleBuild : Build :=
  { id := 12345678
    name := "this-is-a-long-environment-name"
    content_hash := exampleHash
    scheduled_on :=
      { year := 2023, month := 11, day := 5
        hour := 3, minute := 54, second := 10, microsecond := 510258 } }

/-- A stand-in digest function for the version-3 key of the example. -/
def exampleDigest : String → String :=
  fun _ => "c1f206a26263e1166e5b43548f69aa0c"

end CondaStore

/-- C1: for every supported build-key version v ∈ {1, 2, 3} and every build
B (hex content hash, post-epoch schedule time, present and unambiguous in
the build store, as version 3 decodes by consulting the store), parsing the
key produced by encoding B under v recovers B's integer id. -/
theorem C1_build_key_roundtrip (digest : String → String)
    (store : List CondaStore.Build) (v : CondaStore.BuildKey.Version)
    (b : CondaStore.Build)
    (hhash : ∀ c ∈ b.content_hash.data, c ≠ '-')
    (htime : 0 ≤ CondaStore.epochSeconds b.scheduled_on)
    (hmem : b ∈ store)
    (hinj : ∀ b' ∈ store,
      CondaStore.BuildKey.version3_key digest b' =
        CondaStore.BuildKey.version3_key digest b → b'.id = b.id) :
    CondaStore.BuildKey.parse_build_key digest store v
      (CondaStore.BuildKey.get_build_key digest v b) = some b.id :=
  CondaStore.BuildKey.parse_get_build_key digest store v b hhash htime hmem hinj

/-- Witness for C1: the worked-example build round-trips under all three
versions against the singleton build store. -/
theorem C1_build_key_roundtrip_witness :
    CondaStore.BuildKey.parse_build_key CondaStore.exampleDigest
      [CondaStore.exampleBuild] .v1
      (CondaStore.BuildKey.get_build_key CondaStore.exampleDigest .v1
        CondaStore.exampleBuild) = some 12345678 ∧
    CondaStore.BuildKey.parse_build_key CondaStore.exampleDigest
      [CondaStore.exampleBuild] .v2
      (CondaStore.BuildKey.get_build_key CondaStore.exampleDigest .v2
        CondaStore.exampleBuild) = some 12345678 ∧
    CondaStore.BuildKey.parse_build_key CondaStore.exampleDigest
      [CondaStore.exampleBuild] .v3
      (CondaStore.BuildKey.get_build_key CondaStore.exampleDigest .v3
        CondaStore.exampleBuild) = some 12345678 :=
  ⟨C1_build_key_roundtrip _ _ _ _ (by decide) (by decide) (by decide) (by decide),
   C1_build_key_roundtrip _ _ _ _ (by decide) (by decide) (by decide) (by decide),
   C1_build_key_roundtrip _ _ _ _ (by decide) (by decide) (by decide) (by decide)⟩

/-- C2: setting the build-key version to any value outside {1, 2, 3} fails
at configuration-set time with exactly the message
`invalid build key version: <value>, expected: (1, 2, 3)`; setting it to
1, 2 or 3 succeeds and `current_version` reflects the new value
immediately, while `versions` is exactly (1, 2, 3) regardless of the
active version. -/
theorem C2_build_key_version_config (cfg : CondaStore.Config) (v : Int) :
    (v ≠ 1 ∧ v ≠ 2 ∧ v ≠ 3 →
      CondaStore.set_build_key_version cfg v =
        .error ("invalid build key version: " ++ CondaStore.intRepr v
          ++ ", expected: (1, 2, 3)")) ∧
    (v = 1 ∨ v = 2 ∨ v = 3 →
      ∃ cfg', CondaStore.set_build_key_version cfg v = .ok cfg' ∧
        CondaStore.current_version cfg' = v.toNat) ∧
    CondaStore.BuildKey.versions = [1, 2, 3] := by
  refine ⟨fun h => ?_, fun h => ?_, rfl⟩
  · rw [CondaStore.set_build_key_version, if_neg (by tauto)]
  · exact ⟨{ cfg with build_key_version := v.toNat }, by
      rw [CondaStore.set_build_key_version, if_pos h], rfl⟩

/-- Witness for C2: setting version 0 produces exactly the expected error
message, setting version 2 succeeds with `current_version` equal to 2. -/
theorem C2_build_key_version_config_witness :
    CondaStore.set_build_key_version ⟨1⟩ 0 =
      .error "invalid build key version: 0, expected: (1, 2, 3)" ∧
    ∃ cfg', CondaStore.set_build_key_version ⟨1⟩ 2 = .ok cfg' ∧
      CondaStore.current_version cfg' = 2 := by
  refine ⟨?_, ?_⟩
  · have h := (C2_build_key_version_config ⟨1⟩ 0).1 (by decide)
    rw [h]
    rfl
  · exact (C2_build_key_version_config ⟨1⟩ 2).2.1 (by decide)

/-- C4: the worked example — build id 12345678, environment name
`this-is-a-long-environment-name`, scheduled 2023-11-05 03:54:10.510258,
content hash with prefix `c7afdeff` — encodes under version 2 to exactly
`c7afdeff-1699156450-12345678-this-is-a-long-environment-name` and under
version 1 to the full hash followed by
`-20231105-035410-510258-12345678-this-is-a-long-environment-name`. -/
theorem C4_worked_example_keys :
    CondaStore.BuildKey.get_build_key CondaStore.exampleDigest .v2
        CondaStore.exampleBuild =
      "c7afdeff-1699156450-12345678-this-is-a-long-environment-name" ∧
    CondaStore.BuildKey.get_build_key CondaStore.exampleDigest .v1
        CondaStore.exampleBuild =
      CondaStore.exampleHash ++
        "-20231105-035410-510258-12345678-this-is-a-long-environment-name" := by
  constructor <;> decide

namespace CondaStore

/-! ## Artifact resolution -/

/-- Modelled from the spec: the artifact types the resolver serves. -/
inductive BuildArtifactType where
  | LOCKFILE
  | CONSTRUCTOR_INSTALLER
deriving DecidableEq, Repr

/-- Modelled from the spec: a BuildArtifact record — a foreign build id, an
artifact type, and a key where the empty string is the legacy sentinel. -/
structure BuildArtifact where
  build_id : Nat
  artifact_type : BuildArtifactType
  key : String
deriving DecidableEq, Repr

/-- Modelled from the spec: the resolver's failure, `ArtifactNotFound`. -/
inductive ResolveError where
  | ArtifactNotFound
deriving DecidableEq, Repr

/-- Modelled from the spec: a resolver response — either an inline payload
(status 200, one string per line) or a redirect (status 307 with a
`location`). -/
inductive Response where
  | inline (status : Nat) (lines : List String)
  | redirect (status : Nat) (location : String)
deriving DecidableEq, Repr

/-- Modelled from the spec: an installed-package record of the persistent
store, rendered into one pinned line of a legacy lockfile. -/
structure PackageRecord where
  channel_url : String
  subdir : String
  filename : String
  hash : String
deriving DecidableEq, Repr

/-- Modelled from the spec: the URL-with-hash-fragment line of one
installed package, `http(s)://.../<file>.tar.bz2#<hash>`. -/
def packageLine (p : PackageRecord) : String :=
  p.channel_url ++ "/" ++ p.subdir ++ "/" ++ p.filename ++ "#" ++ p.hash

/-- Modelled from the spec: the synthesized inline pinned-package list of a
legacy build — the fixed two-line header, then one line per package. -/
def legacyLockfileLines (platform : String) (pkgs : List PackageRecord) :
    List String :=
  ("#platform: " ++ platform) :: "@EXPLICIT" :: pkgs.map packageLine

/-- Modelled from the spec: the lockfile artifact URL
`lockfile/<build_key>.yml`. -/
def lockfile_url (build_key : String) : String :=
  "lockfile/" ++ build_key ++ ".yml"

/-- Modelled from the spec: the installer artifact URL
`installer/<build_key>.<ext>`, `exe` on Windows-class targets and `sh`
otherwise. -/
def installer_url (windows : Bool) (build_key : String) : String :=
  "installer/" ++ build_key ++ "." ++ (if windows then "exe" else "sh")

/-- Modelled from the spec: a build's versioned lockfile storage key. -/
def conda_lock_key (digest : String → String) (v : BuildKey.Version)
    (b : Build) : String :=
  lockfile_url (BuildKey.get_build_key digest v b)

/-- Modelled from the spec: a build's constructor-installer storage key. -/
def constructor_installer_key (windows : Bool) (digest : String → String)
    (v : BuildKey.Version) (b : Build) : String :=
  installer_url windows (BuildKey.get_build_key digest v b)

/-- Modelled from the spec: `resolve(build, artifact_type)` — look up the
BuildArtifact record for `(build.id, artifact_type)`; for LOCKFILE serve
the synthesized inline legacy list (status 200) when the stored key is the
empty-string sentinel and a 307 redirect to the stored key otherwise; for
CONSTRUCTOR_INSTALLER always a 307 redirect to the stored key; fail with
`ArtifactNotFound` when no record exists. -/
def resolve (platform : String) (pkgs : List PackageRecord)
    (artifacts : List BuildArtifact) (b : Build) (t : BuildArtifactType) :
    Except ResolveError Response :=
  match artifacts.find? fun a => decide (a.build_id = b.id ∧ a.artifact_type = t) with
  | none => .error .ArtifactNotFound
  | some a =>
    match t with
    | .LOCKFILE =>
      if a.key = "" then .ok (.inline 200 (legacyLockfileLines platform pkgs))
      else .ok (.redirect 307 a.key)
    | .CONSTRUCTOR_INSTALLER => .ok (.redirect 307 a.key)

/-! ## The pinned-package line pattern `http.*//.*tar.bz2#.*` -/

/-- Drops everything up to and including the first occurrence of `pat`;
`none` when `pat` does not occur. -/
def dropAfterSub (pat : List Char) : List Char → Option (List Char)
  | [] => if pat = [] then some [] else none
  | c :: cs =>
    if pat.isPrefixOf (c :: cs) then some ((c :: cs).drop pat.length)
    else dropAfterSub pat cs

/-- Decides the regular expression `http.*//.*tar.bz2#.*` the way the
backtracking matcher does: a literal `http` prefix, then `//`, then
`tar.bz2#`, in order. -/
def matchesPkgPattern (s : String) : Bool :=
  "http".data.isPrefixOf s.data &&
    match dropAfterSub "//".data (s.data.drop 4) with
    | some r => (dropAfterSub "tar.bz2#".data r).isSome
    | none => false

end CondaStore

namespace CondaStore

theorem dropAfterSub_append (pat a b : List Char) (hpat : pat ≠ []) :
    ∃ r, dropAfterSub pat (a ++ pat ++ b) = some r ∧ b <:+ r := by
  induction a with
  | nil =>
    cases pat with
    | nil => exact absurd rfl hpat
    | cons p ps =>
      have h1 : ([] : List Char) ++ (p :: ps) ++ b = p :: (ps ++ b) := by simp
      rw [h1, dropAfterSub]
      have hpre : (p :: ps).isPrefixOf (p :: (ps ++ b)) = true := by
        rw [List.isPrefixOf_iff_prefix, ← List.cons_append]
        exact List.prefix_append _ _
      refine ⟨b, ?_, List.suffix_refl b⟩
      rw [if_pos hpre, ← List.cons_append, List.drop_left]
  | cons c a' ih =>
    have h1 : (c :: a') ++ pat ++ b = c :: (a' ++ pat ++ b) := by simp
    rw [h1, dropAfterSub]
    by_cases hpre : pat.isPrefixOf (c :: (a' ++ pat ++ b)) = true
    · rw [if_pos hpre]
      refine ⟨_, rfl, ?_⟩
      have hb : b <:+ c :: (a' ++ pat ++ b) := ⟨c :: (a' ++ pat), by simp⟩
      refine List.suffix_of_suffix_length_le hb (List.drop_suffix _ _) ?_
      rw [List.length_drop]
      simp only [List.length_append, List.length_cons]
      omega
    · rw [if_neg hpre]
      exact ih

theorem dropAfterSub_isSome_of_suffix (pat r c d : List Char) (hpat : pat ≠ [])
    (hsuf : c ++ pat ++ d <:+ r) :
    (dropAfterSub pat r).isSome = true := by
  obtain ⟨e, he⟩ := hsuf
  obtain ⟨r', hr', -⟩ := dropAfterSub_append pat (e ++ c) d hpat
  rw [show e ++ c ++ pat ++ d = e ++ (c ++ pat ++ d) by simp [List.append_assoc]] at hr'
  rw [he] at hr'
  rw [hr']
  rfl

/-- Well-formedness of a package record modelled from the spec: its channel
URL is an `http(s)://` URL and its file name has the `.tar.bz2` extension. -/
def PackageRecord.wf (p : PackageRecord) : Prop :=
  (∃ rest, p.channel_url = "http://" ++ rest ∨ p.channel_url = "https://" ++ rest) ∧
  ∃ base, p.filename = base ++ ".tar.bz2"

theorem matchesPkgPattern_packageLine (p : PackageRecord) (hwf : p.wf) :
    matchesPkgPattern (packageLine p) = true := by
  obtain ⟨⟨rest, hurl⟩, base, hfile⟩ := hwf
  rw [matchesPkgPattern]
  have hline : (packageLine p).data =
      p.channel_url.data ++
        ("/" ++ p.subdir ++ "/" ++ p.filename ++ "#" ++ p.hash).data := by
    simp [packageLine, String.data_append, List.append_assoc]
  have htail : ∃ c d, ("/" ++ p.subdir ++ "/" ++ p.filename ++ "#" ++ p.hash).data =
      c ++ "tar.bz2#".data ++ d := by
    refine ⟨("/" ++ p.subdir ++ "/" ++ base ++ ".").data, p.hash.data, ?_⟩
    rw [hfile]
    simp [String.data_append, List.append_assoc]
  rcases hurl with hurl | hurl
  · rw [hline, hurl]
    obtain ⟨c, d, htl⟩ := htail
    have hdata : ("http://" ++ rest).data ++ (c ++ "tar.bz2#".data ++ d) =
        "http".data ++ ([':'] ++ "//".data ++ (rest.data ++ (c ++ "tar.bz2#".data ++ d))) := by
      simp [String.data_append, List.append_assoc]
    rw [htl, hdata, Bool.and_eq_true]
    constructor
    · rw [List.isPrefixOf_iff_prefix]
      exact List.prefix_append _ _
    · rw [show ("http".data ++ ([':'] ++ "//".data ++ (rest.data ++ (c ++ "tar.bz2#".data ++ d)))).drop 4
          = [':'] ++ "//".data ++ (rest.data ++ (c ++ "tar.bz2#".data ++ d)) by
        rw [show (4 : Nat) = ("http".data).length by decide, List.drop_left]]
      obtain ⟨r, hr, hsuf⟩ := dropAfterSub_append "//".data [':']
        (rest.data ++ (c ++ "tar.bz2#".data ++ d)) (by decide)
      rw [hr]
      exact dropAfterSub_isSome_of_suffix _ r (rest.data ++ c) d (by decide)
        (by simpa [List.append_assoc] using hsuf)
  · rw [hline, hurl]
    obtain ⟨c, d, htl⟩ := htail
    have hdata : ("https://" ++ rest).data ++ (c ++ "tar.bz2#".data ++ d) =
        "http".data ++ (['s', ':'] ++ "//".data ++ (rest.data ++ (c ++ "tar.bz2#".data ++ d))) := by
      simp [String.data_append, List.append_assoc]
    rw [htl, hdata, Bool.and_eq_true]
    constructor
    · rw [List.isPrefixOf_iff_prefix]
      exact List.prefix_append _ _
    · rw [show ("http".data ++ (['s', ':'] ++ "//".data ++ (rest.data ++ (c ++ "tar.bz2#".data ++ d)))).drop 4
          = ['s', ':'] ++ "//".data ++ (rest.data ++ (c ++ "tar.bz2#".data ++ d)) by
        rw [show (4 : Nat) = ("http".data).length by decide, List.drop_left]]
      obtain ⟨r, hr, hsuf⟩ := dropAfterSub_append "//".data ['s', ':']
        (rest.data ++ (c ++ "tar.bz2#".data ++ d)) (by decide)
      rw [hr]
      exact dropAfterSub_isSome_of_suffix _ r (rest.data ++ c) d (by decide)
        (by simpa [List.append_assoc] using hsuf)

end CondaStore

namespace CondaStore

theorem lockfile_url_ne_empty (k : String) : lockfile_url k ≠ "" := by
  intro h
  have := congrArg String.data h
  simp [lockfile_url, String.data_append] at this

/-- An example installed-package record for witnesses. -/
def examplePackage : PackageRecord :=
  { channel_url := "https://conda.anaconda.org/main"
    subdir := "linux-64"
    filename := "numpy-1.26.0-py311.tar.bz2"
    hash := "d41d8cd98f00b204e9800998ecf8427e" }

end CondaStore

/-- C3: `resolve(build, LOCKFILE)` with a non-empty stored artifact key —
recorded as the build's computed lockfile key, as the invariant demands —
returns a 307 redirect whose location is `lockfile/<build_key>.yml` for the
build's encoded key under the active version; that computed URL equals the
stored key, and the embedded build key decodes back to the build's id. -/
theorem C3_resolve_lockfile_redirect (digest : String → String)
    (store : List CondaStore.Build) (v : CondaStore.BuildKey.Version)
    (platform : String) (pkgs : List CondaStore.PackageRecord)
    (artifacts : List CondaStore.BuildArtifact) (b : CondaStore.Build)
    (a : CondaStore.BuildArtifact)
    (hfind : artifacts.find?
      (fun a' => decide (a'.build_id = b.id ∧ a'.artifact_type = .LOCKFILE)) = some a)
    (hkey : a.key = CondaStore.conda_lock_key digest v b)
    (hhash : ∀ c ∈ b.content_hash.data, c ≠ '-')
    (htime : 0 ≤ CondaStore.epochSeconds b.scheduled_on)
    (hmem : b ∈ store)
    (hinj : ∀ b' ∈ store,
      CondaStore.BuildKey.version3_key digest b' =
        CondaStore.BuildKey.version3_key digest b → b'.id = b.id) :
    CondaStore.resolve platform pkgs artifacts b .LOCKFILE =
      .ok (.redirect 307
        (CondaStore.lockfile_url (CondaStore.BuildKey.get_build_key digest v b))) ∧
    CondaStore.lockfile_url (CondaStore.BuildKey.get_build_key digest v b) = a.key ∧
    CondaStore.BuildKey.parse_build_key digest store v
      (CondaStore.BuildKey.get_build_key digest v b) = some b.id := by
  have hne : a.key ≠ "" := by
    rw [hkey]
    exact CondaStore.lockfile_url_ne_empty _
  refine ⟨?_, hkey.symm, CondaStore.BuildKey.parse_get_build_key digest store v b
    hhash htime hmem hinj⟩
  simp only [CondaStore.resolve, hfind]
  rw [if_neg hne, hkey]
  rfl

/-- Witness for C3: the worked-example build with its recorded lockfile
artifact resolves to the 307 redirect computed from its version-2 key. -/
theorem C3_resolve_lockfile_redirect_witness :
    CondaStore.resolve "linux-64" [] [⟨12345678, .LOCKFILE,
        CondaStore.conda_lock_key CondaStore.exampleDigest .v2 CondaStore.exampleBuild⟩]
      CondaStore.exampleBuild .LOCKFILE =
      .ok (.redirect 307 (CondaStore.lockfile_url
        (CondaStore.BuildKey.get_build_key CondaStore.exampleDigest .v2
          CondaStore.exampleBuild))) ∧
    CondaStore.lockfile_url (CondaStore.BuildKey.get_build_key CondaStore.exampleDigest
      .v2 CondaStore.exampleBuild) =
      CondaStore.conda_lock_key CondaStore.exampleDigest .v2 CondaStore.exampleBuild ∧
    CondaStore.BuildKey.parse_build_key CondaStore.exampleDigest
      [CondaStore.exampleBuild] .v2
      (CondaStore.BuildKey.get_build_key CondaStore.exampleDigest .v2
        CondaStore.exampleBuild) = some 12345678 :=
  C3_resolve_lockfile_redirect CondaStore.exampleDigest [CondaStore.exampleBuild] .v2
    "linux-64" []
    [⟨12345678, .LOCKFILE,
      CondaStore.conda_lock_key CondaStore.exampleDigest .v2 CondaStore.exampleBuild⟩]
    CondaStore.exampleBuild
    ⟨12345678, .LOCKFILE,
      CondaStore.conda_lock_key CondaStore.exampleDigest .v2 CondaStore.exampleBuild⟩
    (by decide) rfl (by decide) (by decide) (by decide) (by decide)

/-- C5: `resolve(build, LOCKFILE)` with the empty-string sentinel as stored
key (legacy build) returns the inline payload whose first line is
`#platform: <platform>`, whose second line is `@EXPLICIT`, and whose
remaining lines — at least one — are each a package URL with hash fragment
matching `http.*//.*tar.bz2#.*`. -/
theorem C5_resolve_lockfile_legacy (platform : String)
    (pkgs : List CondaStore.PackageRecord)
    (artifacts : List CondaStore.BuildArtifact) (b : CondaStore.Build)
    (a : CondaStore.BuildArtifact)
    (hfind : artifacts.find?
      (fun a' => decide (a'.build_id = b.id ∧ a'.artifact_type = .LOCKFILE)) = some a)
    (hkey : a.key = "")
    (hpkgs : pkgs ≠ [])
    (hwf : ∀ p ∈ pkgs, p.wf) :
    CondaStore.resolve platform pkgs artifacts b .LOCKFILE =
      .ok (.inline 200 (CondaStore.legacyLockfileLines platform pkgs)) ∧
    (CondaStore.legacyLockfileLines platform pkgs).head? =
      some ("#platform: " ++ platform) ∧
    ((CondaStore.legacyLockfileLines platform pkgs).drop 1).head? =
      some "@EXPLICIT" ∧
    2 < (CondaStore.legacyLockfileLines platform pkgs).length ∧
    ∀ l ∈ (CondaStore.legacyLockfileLines platform pkgs).drop 2,
      CondaStore.matchesPkgPattern l = true := by
  refine ⟨?_, rfl, rfl, ?_, ?_⟩
  · simp only [CondaStore.resolve, hfind]
    rw [if_pos hkey]
  · have : pkgs.length ≠ 0 := fun h => hpkgs (List.length_eq_zero.mp h)
    simp only [CondaStore.legacyLockfileLines, List.length_cons, List.length_map]
    omega
  · intro l hl
    simp only [CondaStore.legacyLockfileLines, List.drop_succ_cons, List.drop_zero] at hl
    obtain ⟨p, hp, rfl⟩ := List.mem_map.mp hl
    exact CondaStore.matchesPkgPattern_packageLine p (hwf p hp)

/-- Witness for C5: a legacy artifact record with one well-formed package
produces the inline pinned list. -/
theorem C5_resolve_lockfile_legacy_witness :
    CondaStore.resolve "linux-64" [CondaStore.examplePackage]
      [⟨12345678, .LOCKFILE, ""⟩] CondaStore.exampleBuild .LOCKFILE =
      .ok (.inline 200 (CondaStore.legacyLockfileLines "linux-64"
        [CondaStore.examplePackage])) ∧
    (CondaStore.legacyLockfileLines "linux-64" [CondaStore.examplePackage]).head? =
      some "#platform: linux-64" ∧
    ((CondaStore.legacyLockfileLines "linux-64"
      [CondaStore.examplePackage]).drop 1).head? = some "@EXPLICIT" ∧
    2 < (CondaStore.legacyLockfileLines "linux-64"
      [CondaStore.examplePackage]).length ∧
    ∀ l ∈ (CondaStore.legacyLockfileLines "linux-64"
        [CondaStore.examplePackage]).drop 2,
      CondaStore.matchesPkgPattern l = true :=
  C5_resolve_lockfile_legacy "linux-64" [CondaStore.examplePackage]
    [⟨12345678, .LOCKFILE, ""⟩] CondaStore.exampleBuild ⟨12345678, .LOCKFILE, ""⟩
    (by decide) rfl (by decide)
    (by
      intro p hp
      rw [List.mem_singleton] at hp
      subst hp
      exact ⟨⟨"conda.anaconda.org/main", Or.inr rfl⟩, "numpy-1.26.0-py311", rfl⟩)

/-- C6: `resolve(build, CONSTRUCTOR_INSTALLER)` always returns a redirect —
never an inline payload — with status 307 and location
`installer/<build_key>.<ext>`, `ext` being `exe` on Windows-class targets
and `sh` otherwise, equal to the stored constructor-installer key. -/
theorem C6_resolve_installer_redirect (windows : Bool) (digest : String → String)
    (v : CondaStore.BuildKey.Version) (platform : String)
    (pkgs : List CondaStore.PackageRecord)
    (artifacts : List CondaStore.BuildArtifact) (b : CondaStore.Build)
    (a : CondaStore.BuildArtifact)
    (hfind : artifacts.find? (fun a' =>
      decide (a'.build_id = b.id ∧ a'.artifact_type = .CONSTRUCTOR_INSTALLER)) = some a)
    (hkey : a.key = CondaStore.constructor_installer_key windows digest v b) :
    CondaStore.resolve platform pkgs artifacts b .CONSTRUCTOR_INSTALLER =
      .ok (.redirect 307 ("installer/"
        ++ CondaStore.BuildKey.get_build_key digest v b ++ "."
        ++ (if windows then "exe" else "sh"))) ∧
    "installer/" ++ CondaStore.BuildKey.get_build_key digest v b ++ "."
        ++ (if windows then "exe" else "sh") = a.key := by
  refine ⟨?_, hkey.symm⟩
  simp only [CondaStore.resolve, hfind]
  rw [hkey]
  rfl

/-- Witness for C6: the worked-example build's installer artifact redirects
to `installer/<v2 key>.sh` on a non-Windows target. -/
theorem C6_resolve_installer_redirect_witness :
    CondaStore.resolve "linux-64" []
      [⟨12345678, .CONSTRUCTOR_INSTALLER, CondaStore.constructor_installer_key false
        CondaStore.exampleDigest .v2 CondaStore.exampleBuild⟩]
      CondaStore.exampleBuild .CONSTRUCTOR_INSTALLER =
      .ok (.redirect 307 ("installer/"
        ++ CondaStore.BuildKey.get_build_key CondaStore.exampleDigest .v2
          CondaStore.exampleBuild ++ "." ++ (if false then "exe" else "sh"))) ∧
    "installer/" ++ CondaStore.BuildKey.get_build_key CondaStore.exampleDigest .v2
        CondaStore.exampleBuild ++ "." ++ (if false then "exe" else "sh") =
      CondaStore.constructor_installer_key false CondaStore.exampleDigest .v2
        CondaStore.exampleBuild :=
  C6_resolve_installer_redirect false CondaStore.exampleDigest .v2 "linux-64" []
    [⟨12345678, .CONSTRUCTOR_INSTALLER, CondaStore.constructor_installer_key false
      CondaStore.exampleDigest .v2 CondaStore.exampleBuild⟩]
    CondaStore.exampleBuild
    ⟨12345678, .CONSTRUCTOR_INSTALLER, CondaStore.constructor_installer_key false
      CondaStore.exampleDigest .v2 CondaStore.exampleBuild⟩
    (by decide) rfl

namespace CondaStore

/-! ## The action runner: output capture -/

/-- Modelled from the spec: one observable output step of an action body —
a direct standard-output write, a direct standard-error write, a logged
message, or a subprocess invocation producing `out` on its stdout and
`err` on its stderr, run with or without stderr redirection. -/
inductive ActionEvent where
  | print (s : String)
  | printErr (s : String)
  | logInfo (s : String)
  | runCmd (out err : String) (redirect_stderr : Bool)
deriving DecidableEq, Repr

/-- Modelled from the spec: the execution context's append-only captured
output buffers. -/
structure Context where
  stdout : String
  stderr : String
deriving DecidableEq, Repr

/-- Modelled from the spec: how the runner's redirection routes one output
step into the context's buffers — direct writes to either stream and
logged messages are captured into `stdout`; subprocess stdout goes to
`stdout`; subprocess stderr is merged into `stdout` when redirected and
appended to `stderr` otherwise. -/
def applyEvent (ctx : Context) : ActionEvent → Context
  | .print s => { ctx with stdout := ctx.stdout ++ s }
  | .printErr s => { ctx with stdout := ctx.stdout ++ s }
  | .logInfo s => { ctx with stdout := ctx.stdout ++ s }
  | .runCmd out err redirect_stderr =>
    if redirect_stderr then { ctx with stdout := ctx.stdout ++ (out ++ err) }
    else { stdout := ctx.stdout ++ out, stderr := ctx.stderr ++ err }

/-- Modelled from the spec: the final log line
`Action <name> completed in <seconds>.<fraction> s.` appended to stdout. -/
def completionLine (name : String) (sec frac : Nat) : String :=
  "Action " ++ name ++ " completed in " ++ natDigs sec ++ "." ++ natDigs frac
    ++ " s.\n"

/-- Modelled from the spec: the Action Runner — runs the body's output
steps through the redirection into a fresh context, then appends the
completion-timing line (`sec`/`frac` being the measured elapsed time). -/
def run_action (name : String) (events : List ActionEvent) (sec frac : Nat) :
    Context :=
  let ctx := events.foldl applyEvent ⟨"", ""⟩
  { ctx with stdout := ctx.stdout ++ completionLine name sec frac }

/-- The non-redirected output a single step emits on stdout. -/
def eventStdout : ActionEvent → String
  | .print s => s
  | .printErr s => s
  | .logInfo s => s
  | .runCmd out err redirect_stderr => out ++ (if redirect_stderr then err else "")

/-- The un-redirected subprocess stderr a single step emits. -/
def eventStderr : ActionEvent → String
  | .runCmd _ err false => err
  | _ => ""

/-- Concatenation of a list of output chunks in emission order. -/
def concatAll : List String → String
  | [] => ""
  | s :: l => s ++ concatAll l

theorem applyEvent_stdout (ctx : Context) (e : ActionEvent) :
    (applyEvent ctx e).stdout = ctx.stdout ++ eventStdout e := by
  cases e with
  | print s => rfl
  | printErr s => rfl
  | logInfo s => rfl
  | runCmd out err redirect_stderr =>
    cases redirect_stderr with
    | true => simp [applyEvent, eventStdout]
    | false => simp [applyEvent, eventStdout]

theorem applyEvent_stderr (ctx : Context) (e : ActionEvent) :
    (applyEvent ctx e).stderr = ctx.stderr ++ eventStderr e := by
  cases e with
  | print s => simp [applyEvent, eventStderr, String.append_empty]
  | printErr s => simp [applyEvent, eventStderr, String.append_empty]
  | logInfo s => simp [applyEvent, eventStderr, String.append_empty]
  | runCmd out err redirect_stderr =>
    cases redirect_stderr with
    | true => simp [applyEvent, eventStderr, String.append_empty]
    | false => simp [applyEvent, eventStderr]

theorem foldl_applyEvent_stdout (events : List ActionEvent) (ctx : Context) :
    (events.foldl applyEvent ctx).stdout =
      ctx.stdout ++ concatAll (events.map eventStdout) := by
  induction events generalizing ctx with
  | nil => simp [concatAll, String.append_empty]
  | cons e es ih =>
    rw [List.foldl_cons, ih, applyEvent_stdout]
    simp [concatAll, String.append_assoc]

theorem foldl_applyEvent_stderr (events : List ActionEvent) (ctx : Context) :
    (events.foldl applyEvent ctx).stderr =
      ctx.stderr ++ concatAll (events.map eventStderr) := by
  induction events generalizing ctx with
  | nil => simp [concatAll, String.append_empty]
  | cons e es ih =>
    rw [List.foldl_cons, ih, applyEvent_stderr]
    simp [concatAll, String.append_assoc]

end CondaStore

/-- C7: for every action run through the Action Runner whose body emits any
mix of direct writes, logged messages and subprocesses with and without
stderr redirection, the context's stdout is exactly the non-redirected
output in emission order followed by the final line
`Action <name> completed in <seconds>.<fraction> s.` (all-digit seconds and
a nonempty all-digit fraction), and the context's stderr is exactly the
un-redirected subprocess stderr. -/
theorem C7_action_output_capture (name : String)
    (events : List CondaStore.ActionEvent) (sec frac : Nat) :
    (CondaStore.run_action name events sec frac).stdout =
      CondaStore.concatAll (events.map CondaStore.eventStdout) ++
        ("Action " ++ name ++ " completed in " ++ CondaStore.natDigs sec ++ "."
          ++ CondaStore.natDigs frac ++ " s.\n") ∧
    (CondaStore.run_action name events sec frac).stderr =
      CondaStore.concatAll (events.map CondaStore.eventStderr) ∧
    (∀ c ∈ (CondaStore.natDigs sec).data, c.isDigit = true) ∧
    (∀ c ∈ (CondaStore.natDigs frac).data, c.isDigit = true) ∧
    (CondaStore.natDigs frac).data ≠ [] := by
  refine ⟨?_, ?_, CondaStore.natDigs_all_digits sec,
    CondaStore.natDigs_all_digits frac, CondaStore.natDigs_ne_nil frac⟩
  · show (events.foldl CondaStore.applyEvent ⟨"", ""⟩).stdout ++
        CondaStore.completionLine name sec frac = _
    rw [CondaStore.foldl_applyEvent_stdout]
    rfl
  · show (events.foldl CondaStore.applyEvent ⟨"", ""⟩).stderr = _
    rw [CondaStore.foldl_applyEvent_stderr]
    rfl

namespace CondaStore

/-! ## The action runner: scratch directory, working directory, cleanup -/

/-- Modelled from the spec: the file-system and process state the runner
touches — the set of existing paths and the current working directory. -/
structure SysState where
  fs : List String
  cwd : String
deriving DecidableEq, Repr

/-- A path strictly inside directory `d`. -/
def underDir (d p : String) : Bool :=
  (d ++ "/").isPrefixOf p

/-- Modelled from the spec: entering an action — the runner creates the
fresh scratch directory and makes it the working directory for the body. -/
def enterAction (scratch : String) (s : SysState) : SysState :=
  { fs := scratch :: s.fs, cwd := scratch }

/-- Modelled from the spec: recursive removal of the scratch directory and
everything under it. -/
def removeScratch (scratch : String) (fs : List String) : List String :=
  fs.filter fun p => !(p == scratch || underDir scratch p)

/-- Modelled from the spec: the Action Runner's resource handling — create
and enter the fresh scratch directory, invoke the body (which may return
normally, `.ok`, or raise, `.error`, and may itself change the state), and
on either exit path delete the scratch directory recursively and restore
the caller's working directory. -/
def run_action_fs {ε α : Type} (scratch : String) (s : SysState)
    (body : SysState → Except ε α × SysState) : Except ε α × SysState :=
  let r := body (enterAction scratch s)
  (r.1, { fs := removeScratch scratch r.2.fs, cwd := s.cwd })

/-- Modelled from the spec: the `InvalidPrefix` failure of operations on
managed environment directories. -/
inductive ActionError where
  | InvalidPrefix
deriving DecidableEq, Repr

/-- Modelled from the spec: recognizing an existing managed environment
directory by its conda metadata marker. -/
def is_conda_prefix (fs : List String) (d : String) : Bool :=
  fs.contains (d ++ "/conda-meta/history")

/-- Modelled from the spec: removing a conda prefix — a path that is not a
managed environment directory fails immediately with `InvalidPrefix` and
the file system is left unchanged; a managed directory is removed
recursively. -/
def action_remove_conda_prefix (fs : List String) (d : String) :
    Except ActionError Unit × List String :=
  if is_conda_prefix fs d then
    (.ok (), fs.filter fun p => !(p == d || underDir d p))
  else (.error .InvalidPrefix, fs)

end CondaStore

/-- C8: for every action run through the Action Runner — whatever the body
does to the file system, and whether it returns normally or raises — the
scratch directory and every path under it no longer exist in the final
file-system state. -/
theorem C8_scratch_dir_cleanup {ε α : Type} (scratch : String)
    (s : CondaStore.SysState)
    (body : CondaStore.SysState → Except ε α × CondaStore.SysState)
    (p : String)
    (hp : p = scratch ∨ CondaStore.underDir scratch p = true) :
    p ∉ (CondaStore.run_action_fs scratch s body).2.fs := by
  intro hmem
  have := List.of_mem_filter hmem
  rcases hp with rfl | hunder
  · simp at this
  · rw [hunder] at this
    simp at this

/-- Witness for C8: a body that raises after creating files under the
scratch directory still leaves no trace of it. -/
theorem C8_scratch_dir_cleanup_witness :
    ("/tmp/scratch-1" = "/tmp/scratch-1" ∨
      CondaStore.underDir "/tmp/scratch-1" "/tmp/scratch-1" = true) ∧
    "/tmp/scratch-1" ∉
      (CondaStore.run_action_fs "/tmp/scratch-1" ⟨["/home"], "/home"⟩
        (fun st => ((Except.error "boom" : Except String Unit),
          { st with fs := ("/tmp/scratch-1/f.txt" : String) :: st.fs }))).2.fs :=
  ⟨Or.inl rfl,
    C8_scratch_dir_cleanup "/tmp/scratch-1" ⟨["/home"], "/home"⟩ _ _ (Or.inl rfl)⟩

/-- C9: an operation expecting an existing managed environment directory
(removing a conda prefix), given a path that is not one, fails immediately
with `InvalidPrefix` and performs no side effects: the file system is
returned unchanged, and the result is an error, never a silent no-op. -/
theorem C9_remove_non_conda_prefix_fails (fs : List String) (d : String)
    (h : CondaStore.is_conda_prefix fs d = false) :
    CondaStore.action_remove_conda_prefix fs d =
      (.error .InvalidPrefix, fs) := by
  rw [CondaStore.action_remove_conda_prefix, if_neg]
  rw [h]
  exact Bool.false_ne_true

/-- Witness for C9: an existing plain directory that is not a conda prefix
is rejected with `InvalidPrefix` and left untouched. -/
theorem C9_remove_non_conda_prefix_fails_witness :
    CondaStore.is_conda_prefix ["/tmp/test"] "/tmp/test" = false ∧
    CondaStore.action_remove_conda_prefix ["/tmp/test"] "/tmp/test" =
      (.error .InvalidPrefix, ["/tmp/test"]) :=
  ⟨by decide, C9_remove_non_conda_prefix_fails ["/tmp/test"] "/tmp/test" (by decide)⟩

/-- C10: for every action run through the Action Runner, the working
directory the body observes (the `cwd` of the state the runner hands it)
is the freshly created scratch directory, which is distinct from the
caller's working directory, and the caller's working directory is restored
when the runner returns. -/
theorem C10_action_cwd {ε α : Type} (scratch : String)
    (s : CondaStore.SysState)
    (body : CondaStore.SysState → Except ε α × CondaStore.SysState)
    (hfresh : scratch ∉ s.fs) (hcwd : s.cwd ∈ s.fs) :
    (CondaStore.enterAction scratch s).cwd = scratch ∧
    scratch ≠ s.cwd ∧
    (CondaStore.run_action_fs scratch s body).2.cwd = s.cwd := by
  refine ⟨rfl, ?_, rfl⟩
  intro he
  exact hfresh (he ▸ hcwd)

/-- Witness for C10: a concrete run in which the body sees the scratch
directory as its working directory and the caller's directory is
restored. -/
theorem C10_action_cwd_witness :
    "/tmp/scratch-2" ∉ (["/home"] : List String) ∧
    "/home" ∈ (["/home"] : List String) ∧
    (CondaStore.enterAction "/tmp/scratch-2" ⟨["/home"], "/home"⟩).cwd =
      "/tmp/scratch-2" ∧
    "/tmp/scratch-2" ≠ "/home" ∧
    (CondaStore.run_action_fs "/tmp/scratch-2" ⟨["/home"], "/home"⟩
      (fun st => ((Except.ok 0 : Except String Nat), st))).2.cwd = "/home" :=
  ⟨by decide, by decide,
    C10_action_cwd "/tmp/scratch-2" ⟨["/home"], "/home"⟩
      (fun st => ((Except.ok 0 : Except String Nat), st)) (by decide) (by decide)⟩
